import Mathlib

/-!
Shallow embedding of the buffer library in `src/index.js`.

The source file contains two complete editions of the same library: an
IIFE on lines 22-2467 (called v1 below) and a second IIFE on lines
2488-4961 (called v2 below).  Where the two editions agree, the embedding
carries a single definition; where they differ, both are embedded with a
`_v1` / `_v2` suffix and the line numbers are given in the doc comment.

Buffers (`Uint8Array` contents) are modelled as `List Nat`, each element
a byte value below 256; JavaScript strings are modelled as `List Nat` of
UTF-16 code units (`charCodeAt` values), except for the hex and base64
codecs where `List Char` is closer to the character tests the source
performs.  Operations that can throw return `Except JsError _`; in-place
mutation is modelled by returning the buffer.
-/

set_option linter.unusedVariables false

/-- Error classes thrown by the library: a coarse model of the error
constructors in the source (`ERR_OUT_OF_RANGE`, `ERR_BUFFER_OUT_OF_BOUNDS`,
plain `RangeError` and `TypeError`, `ERR_INVALID_BUFFER_SIZE`) plus the
`ReferenceError` the JavaScript runtime raises on an unbound identifier. -/
inductive JsError where
  | typeError (msg : String)
  | rangeError (msg : String)
  | outOfRange (name : String)
  | bufferOutOfBounds
  | invalidBufferSize (size : String)
  | referenceError (name : String)
  deriving Repr, DecidableEq

/-- Value of `buf[i]` for a `Uint8Array`: `some` byte when the index is in
range, `none` (JavaScript `undefined`) otherwise. -/
def jsGet (buf : List Nat) (i : Int) : Option Nat :=
  if 0 ≤ i then buf[i.toNat]? else none

/-- Effect of `buf[i] = v` on a `Uint8Array`: the stored value is reduced
mod 256 (`ToUint8`) and assignments to out-of-range indices are ignored. -/
def jsSet (buf : List Nat) (i : Int) (v : Int) : List Nat :=
  if 0 ≤ i then buf.set i.toNat (v.emod 256).toNat else buf

/-- JavaScript `ToUint32`. -/
def toUint32 (x : Int) : Int := x.emod 4294967296

/-- JavaScript `ToInt32`. -/
def toInt32 (x : Int) : Int :=
  let r := x.emod 4294967296
  if r < 2147483648 then r else r - 4294967296

/-- JavaScript `x >>> n`: unsigned 32-bit right shift. -/
def shrU32 (x : Int) (n : Nat) : Int := (toUint32 x).fdiv (2 ^ n)

/-- JavaScript `x >> n`: arithmetic 32-bit right shift (floor division of
the 32-bit signed reinterpretation). -/
def shrS32 (x : Int) (n : Nat) : Int := (toInt32 x).fdiv (2 ^ n)

/-- `boundsError(value, length)`, lines 1580-1592 (v1) and 2885-2897 (v2),
identical in both editions; restricted to integer `value`, so the
`Math.floor(value) !== value` branch never fires. -/
def boundsError (value : Int) (length : Int) : JsError :=
  if length < 0 then .bufferOutOfBounds else .outOfRange "offset"

/-- `checkBounds(buf, offset, byteLength)`, lines 1555-1559 (v1) and
2865-2869 (v2), identical in both editions. -/
def checkBounds (buf : List Nat) (offset : Int) (byteLength : Nat) :
    Option JsError :=
  if jsGet buf offset = none ∨ jsGet buf (offset + byteLength) = none then
    some (boundsError offset ((buf.length : Int) - (byteLength + 1)))
  else none

/-- `checkInt(value, min, max, buf, offset, byteLength)`, lines 1561-1578
(v1) and 2871-2883 (v2), identical in both editions; the range-description
string built for the message is not tracked by the model. -/
def checkInt (value min max : Int) (buf : List Nat) (offset : Int)
    (byteLength : Nat) : Option JsError :=
  if value > max ∨ value < min then some (.outOfRange "value")
  else checkBounds buf offset byteLength

/-- `writeU_Int32LE(buf, value, offset, min, max)`, lines 2197-2209 (v1)
and 3500-3512 (v2), identical in both editions.  The returned pair is the
buffer after the call (the source mutates in place) together with the
result of the call. -/
def writeU_Int32LE (buf : List Nat) (value offset min max : Int) :
    List Nat × Except JsError Int :=
  match checkInt value min max buf offset 3 with
  | some e => (buf, .error e)
  | none =>
    let b0 := jsSet buf offset value
    let v1 := shrU32 value 8
    let b1 := jsSet b0 (offset + 1) v1
    let v2 := shrU32 v1 8
    let b2 := jsSet b1 (offset + 2) v2
    let v3 := shrU32 v2 8
    let b3 := jsSet b2 (offset + 3) v3
    (b3, .ok (offset + 4))

/-- `writeUInt32LE(value, offset)`, lines 2211-2213 (v1) and 3514-3516
(v2). -/
def writeUInt32LE (buf : List Nat) (value offset : Int) :
    List Nat × Except JsError Int :=
  writeU_Int32LE buf value offset 0 4294967295

/-- `writeU_Int8(buf, value, offset, min, max)`, lines 2240-2252 (v1) and
3543-3553 (v2), identical in both editions. -/
def writeU_Int8 (buf : List Nat) (value offset min max : Int) :
    List Nat × Except JsError Int :=
  if value > max ∨ value < min then (buf, .error (.outOfRange "value"))
  else if jsGet buf offset = none then
    (buf, .error (boundsError offset ((buf.length : Int) - 1)))
  else (jsSet buf offset value, .ok (offset + 1))

/-- `writeUInt8(value, offset)`, lines 2254-2256 (v1) and 3555-3557 (v2). -/
def writeUInt8 (buf : List Nat) (value offset : Int) :
    List Nat × Except JsError Int :=
  writeU_Int8 buf value offset 0 255

/-- `writeBigU_Int64LE(buf, value, offset, min, max)`, lines 2085-2105 (v1)
and 3388-3408 (v2), identical in both editions; `value` is a BigInt.
`Number(value & 0xffffffffn)` is the nonnegative residue mod 2^32,
`Number(value >> 32n & 0xffffffffn)` floor-divides first, and the interior
`lo = lo >> 8` steps are 32-bit arithmetic shifts on a JavaScript Number. -/
def writeBigU_Int64LE (buf : List Nat) (value offset min max : Int) :
    List Nat × Except JsError Int :=
  match checkInt value min max buf offset 7 with
  | some e => (buf, .error e)
  | none =>
    let lo0 := value.emod 4294967296
    let b0 := jsSet buf offset lo0
    let lo1 := shrS32 lo0 8
    let b1 := jsSet b0 (offset + 1) lo1
    let lo2 := shrS32 lo1 8
    let b2 := jsSet b1 (offset + 2) lo2
    let lo3 := shrS32 lo2 8
    let b3 := jsSet b2 (offset + 3) lo3
    let hi0 := (value.fdiv 4294967296).emod 4294967296
    let b4 := jsSet b3 (offset + 4) hi0
    let hi1 := shrS32 hi0 8
    let b5 := jsSet b4 (offset + 5) hi1
    let hi2 := shrS32 hi1 8
    let b6 := jsSet b5 (offset + 6) hi2
    let hi3 := shrS32 hi2 8
    let b7 := jsSet b6 (offset + 7) hi3
    (b7, .ok (offset + 8))

/-- `writeBigUInt64LE(value, offset)`, lines 2107-2109 (v1) and 3410-3412
(v2). -/
def writeBigUInt64LE (buf : List Nat) (value offset : Int) :
    List Nat × Except JsError Int :=
  writeBigU_Int64LE buf value offset 0 18446744073709551615

/-- `readUInt8(offset)`, lines 1751-1758 (v1) and 3055-3062 (v2),
identical in both editions. -/
def readUInt8 (buf : List Nat) (offset : Int) : Except JsError Nat :=
  match jsGet buf offset with
  | none => .error (boundsError offset ((buf.length : Int) - 1))
  | some v => .ok v

/-- Loop body of `asciiWrite`, lines 822-823 (v1) and 3785-3786 (v2):
`this[offset++] = string.charCodeAt(i) & 0xFF` over the first
`length`-after-clamping characters (the caller passes the clamped prefix
of the string).  Both editions use the mask `0xFF`. -/
def asciiWriteLoop (buf : List Nat) (s : List Nat) (offset : Nat) : List Nat :=
  match s with
  | [] => buf
  | c :: rest => asciiWriteLoop (buf.set offset (c &&& 255)) rest (offset + 1)

/-- `asciiWrite(string, offset, length)`, lines 809-825 (v1) and 3777-3788
(v2); the two editions differ only in how default arguments are spelled and
in returning `i` versus `length`, which agree.  The string is a list of
UTF-16 code units. -/
def asciiWrite (buf : List Nat) (s : List Nat) (offset length : Int) :
    Except JsError (List Nat × Nat) :=
  if offset < 0 ∨ length < 0 then .error (.rangeError "Index out of range")
  else if offset > (buf.length : Int) then
    .error (.rangeError "offset is outside of buffer bounds")
  else
    let effLen := min (buf.length - offset.toNat) (min s.length length.toNat)
    .ok (asciiWriteLoop buf (s.take effLen) offset.toNat, effLen)

/-- Loop body of `asciiSlice`, lines 833-834 (v1) and 3772-3773 (v2):
`ret += String.fromCharCode(this[i] & 0x7F)` for `i` in `[start, end)`. -/
def asciiSliceLoop (buf : List Nat) (i e : Nat) : List Nat :=
  if i < e then (buf.getD i 0 &&& 127) :: asciiSliceLoop buf (i + 1) e else []
termination_by e - i

/-- `asciiSlice(start, end)`, lines 827-836 (v1) and 3766-3775 (v2),
identical in both editions. -/
def asciiSlice (buf : List Nat) (start endIdx : Int) :
    Except JsError (List Nat) :=
  if start < 0 ∨ start > (buf.length : Int) ∨ endIdx > (buf.length : Int) then
    .error (.rangeError "Index out of range")
  else
    let e := if endIdx < start then start else endIdx
    .ok (asciiSliceLoop buf start.toNat e.toNat)

/-- `Uint8Array.prototype.fill.call(buf, value, i, e)`: every index in
`[i, e)` is set to `ToUint8(value)`; used by `_fill`, line 573 (v1) and
line 4839 (v2). -/
def fillRange (buf : List Nat) (value : Int) (i e : Nat) : List Nat :=
  if i < e then fillRange (buf.set i (value.emod 256).toNat) value (i + 1) e
  else buf
termination_by e - i

/-- Numeric-value path of `_fill(buf, value, offset, end)`, lines 522-582
(v1) and 4791-4849 (v2), with `offset` and `end` supplied and `value` a
number.  The v2 edition (cited by the claim) validates
`validateOffset(offset)` (an integer at least 0), `validateOffset(end, 0,
buf.length)`, returns the buffer untouched when `offset >= end`, and
re-checks the range against the backing store before calling the typed
array fill; for a non-view buffer that backing-store length is
`buf.length`.  (v1 differs only in not placing a lower bound on
`offset`.) -/
def _fill (buf : List Nat) (value : Int) (offset endIdx : Int) :
    Except JsError (List Nat) :=
  if ¬ 0 ≤ offset then .error (.outOfRange "offset")
  else if ¬ (0 ≤ endIdx ∧ endIdx ≤ (buf.length : Int)) then
    .error (.outOfRange "end")
  else if offset ≥ endIdx then .ok buf
  else
    let byteLen := buf.length
    let fillLength := endIdx - offset
    if offset > endIdx ∨ fillLength + offset > (byteLen : Int) then
      .error .bufferOutOfBounds
    else .ok (fillRange buf value offset.toNat endIdx.toNat)

/-- Byte loop of `_compare` in the first edition, lines 698-705: for each
index in turn, `if (c1 < c2) return -1; if (c1 > c2) return 1`, falling
through to 0 at the end.  The loop runs over two equal-length buffers, so
it is phrased structurally on the two lists. -/
def compareLoop_v1 : List Nat → List Nat → Int
  | c1 :: r1, c2 :: r2 =>
    if c1 < c2 then -1 else if c1 > c2 then 1 else compareLoop_v1 r1 r2
  | _, _ => 0

/-- `_compare(buf1, buf2)` of the first edition, lines 693-707: it orders
by length before looking at any byte. -/
def _compare_v1 (buf1 buf2 : List Nat) : Int :=
  if buf1.length < buf2.length then -1
  else if buf1.length > buf2.length then 1
  else compareLoop_v1 buf1 buf2

/-- `normalizeCompareVal(val, aLen, bLen)` of the second edition, lines
2708-2720. -/
def normalizeCompareVal (val : Int) (aLen bLen : Nat) : Int :=
  if val = 0 then
    if aLen > bLen then 1 else if aLen < bLen then -1 else val
  else if val > 0 then 1 else -1

/-- Byte loop of `_compare` in the second edition, lines 2726-2735: for
each index below `min(sourceLen, targetLen)`,
`if (a !== b) return (a > b ? 1 : -1)`; phrased structurally on the two
lists, which stops exactly at the shorter length. -/
def compareLoop_v2 : List Nat → List Nat → Int
  | a :: as, b :: bs =>
    if a ≠ b then (if a > b then 1 else -1) else compareLoop_v2 as bs
  | _, _ => 0

/-- `_compare(source, target)` of the second edition, lines 2722-2737. -/
def _compare_v2 (source target : List Nat) : Int :=
  match compareLoop_v2 source target with
  | 0 => normalizeCompareVal 0 source.length target.length
  | v => v

/-- `swap(b, n, m)`, lines 1505-1509 (v1) and 4919-4923 (v2). -/
def swapAt (b : List Nat) (n m : Nat) : List Nat :=
  let i := b.getD n 0
  (b.set n (b.getD m 0)).set m i

/-- Loop of `swap16` in the second edition, lines 4929-4930:
`for (let i = 0; i < len; i += 2) swap(this, i, i + 1)`, phrased with the
number of remaining 2-byte groups as the recursion counter. -/
def swap16Loop : List Nat → Nat → Nat → List Nat
  | b, _, 0 => b
  | b, i, k + 1 => swap16Loop (swapAt b i (i + 1)) (i + 2) k

/-- `swap16()` of the second edition, lines 4925-4932. -/
def swap16_v2 (buf : List Nat) : Except JsError (List Nat) :=
  if buf.length % 2 ≠ 0 then .error (.invalidBufferSize "16-bits")
  else .ok (swap16Loop buf 0 (buf.length / 2))

/-- Loop of `swap64` in the second edition, lines 4949-4954, phrased with
the number of remaining 8-byte groups as the recursion counter. -/
def swap64Loop : List Nat → Nat → Nat → List Nat
  | b, _, 0 => b
  | b, i, k + 1 =>
    let b1 := swapAt b i (i + 7)
    let b2 := swapAt b1 (i + 1) (i + 6)
    let b3 := swapAt b2 (i + 2) (i + 5)
    let b4 := swapAt b3 (i + 3) (i + 4)
    swap64Loop b4 (i + 8) k

/-- `swap64()` of the second edition, lines 4945-4956. -/
def swap64_v2 (buf : List Nat) : Except JsError (List Nat) :=
  if buf.length % 8 ≠ 0 then .error (.invalidBufferSize "64-bits")
  else .ok (swap64Loop buf 0 (buf.length / 8))

/-- `swap16()` of the first edition, lines 1511-1517: its body reads
`len`, an identifier that is declared nowhere in the enclosing strict-mode
IIFE (the second edition adds `const len = this.length`), so every call
throws a ReferenceError at `len % 2` before touching the buffer; `swap32`
and `swap64` of the first edition, lines 1519-1539, fail the same way. -/
def swap16_v1 (buf : List Nat) : Except JsError (List Nat) :=
  .error (.referenceError "len")

/-- Lowercase hexadecimal digit character for a value below 16, as
produced by `Number.prototype.toString(16)`. -/
def hexDigit (n : Nat) : Char :=
  if n < 10 then Char.ofNat (48 + n) else Char.ofNat (87 + n)

/-- `b.toString(16)` for a byte value: one digit below 16, two digits
otherwise, never zero-padded. -/
def jsByteToString16 (b : Nat) : List Char :=
  if b < 16 then [hexDigit b] else [hexDigit (b / 16), hexDigit (b % 16)]

/-- `b.toString(16).padStart(2, c)` with `c` the zero digit, as in the
second-edition `hexSlice`, line 4138. -/
def jsByteToString16Padded (b : Nat) : List Char :=
  let s := jsByteToString16 b
  if s.length < 2 then '0' :: s else s

/-- Loop of first-edition `hexSlice`, lines 1172-1173:
`res += this[i].toString(16)` over the bytes of the selected range. -/
def hexSliceLoop_v1 : List Nat → List Char
  | [] => []
  | b :: rest => jsByteToString16 b ++ hexSliceLoop_v1 rest

/-- `hexSlice(start, end)` of the first edition, lines 1166-1175; digits
are not zero-padded (the second edition, lines 4131-4140, adds
`padStart(2, zero)`). -/
def hexSlice_v1 (buf : List Nat) (start endIdx : Int) :
    Except JsError (List Char) :=
  if start < 0 ∨ start > (buf.length : Int) ∨ endIdx > (buf.length : Int) then
    .error (.rangeError "Index out of range")
  else
    let e := if endIdx < start then start else endIdx
    .ok (hexSliceLoop_v1 ((buf.drop start.toNat).take (e.toNat - start.toNat)))

/-- Loop of second-edition `hexSlice`, lines 4137-4138, with zero
padding. -/
def hexSliceLoop_v2 : List Nat → List Char
  | [] => []
  | b :: rest => jsByteToString16Padded b ++ hexSliceLoop_v2 rest

/-- `hexSlice(start, end)` of the second edition, lines 4131-4140. -/
def hexSlice_v2 (buf : List Nat) (start endIdx : Int) :
    Except JsError (List Char) :=
  if start < 0 ∨ start > (buf.length : Int) ∨ endIdx > (buf.length : Int) then
    .error (.rangeError "Index out of range")
  else
    let e := if endIdx < start then start else endIdx
    .ok (hexSliceLoop_v2 ((buf.drop start.toNat).take (e.toNat - start.toNat)))

/-- `parseInt(c, 16)` on a single-character string: the value of a
hexadecimal digit (either case), otherwise NaN (`none`). -/
def parseHexDigit (c : Char) : Option Nat :=
  if 48 ≤ c.toNat ∧ c.toNat ≤ 57 then some (c.toNat - 48)
  else if 97 ≤ c.toNat ∧ c.toNat ≤ 102 then some (c.toNat - 87)
  else if 65 ≤ c.toNat ∧ c.toNat ≤ 70 then some (c.toNat - 55)
  else none

/-- Loop of `hexWrite`, lines 1156-1163 (v1) and 4150-4155 (v2):
`const code = parseInt(string.slice(i * 2, i * 2 + 1), 16)` — note the
slice takes ONE character, the character at index `i * 2` — then
`if (Number.isNaN(code)) return i; this[offset++] = code`.  The counter
`k` is the number of remaining iterations, `length - i`. -/
def hexWriteLoop (s : List Char) : List Nat → Nat → Nat → Nat → List Nat × Nat
  | buf, _, i, 0 => (buf, i)
  | buf, offset, i, k + 1 =>
    match s[i * 2]? with
    | none => (buf, i)
    | some c =>
      match parseHexDigit c with
      | none => (buf, i)
      | some code => hexWriteLoop s (buf.set offset code) (offset + 1) (i + 1) k

/-- `hexWrite(string, offset, length)`, lines 1142-1164 (v1) and 4142-4157
(v2); the editions differ only in the spelling of the defaults and in
returning `i` versus `length`, which agree at normal loop exit. -/
def hexWrite (buf : List Nat) (s : List Char) (offset length : Int) :
    Except JsError (List Nat × Nat) :=
  if offset < 0 ∨ length < 0 then .error (.rangeError "Index out of range")
  else if offset > (buf.length : Int) then
    .error (.rangeError "offset is outside of buffer bounds")
  else
    let effLen := min (buf.length - offset.toNat) (min (s.length / 2) length.toNat)
    .ok (hexWriteLoop s buf offset.toNat 0 effLen)

/-- First-byte scan of the second-edition `indexOfBuffer` forward branch,
lines 2777-2784: `for (i = byteOffset; i !== bufLen - valLen; ++i)` breaks
with `foundIndex = i` at the first position whose unit equals `val[0]`.
Byte granularity: the `encoding` argument at the `indexOfBuffer` call
sites of this edition is a numeric `encodingsMap` value, which
`normalizeEncoding` never maps to the string utf16le, so `indexSize` is
always 1.  The counter `k` is the remaining distance `target - i`, and
`k = 0` is the `i !== target` loop exit. -/
def indexOfBufferFirstByteScan (buffer val : List Nat) : Nat → Nat → Option Nat
  | _, 0 => none
  | i, k + 1 =>
    if buffer[i]? = val[0]? then some i
    else indexOfBufferFirstByteScan buffer val (i + 1) k

/-- Rest-of-needle check of the second-edition `indexOfBuffer` forward
branch, lines 2785-2791: `for (let j = 1; j !== valLen; ++j)` compares
`buffer[i + j]` with `val[j]` and gives up at the first mismatch (it does
NOT resume scanning).  The counter `k` is `valLen - j`. -/
def indexOfBufferMatchRest (buffer val : List Nat) (i : Nat) :
    Nat → Nat → Bool
  | _, 0 => true
  | j, k + 1 =>
    if buffer[i + j]? = val[j]? then
      indexOfBufferMatchRest buffer val i (j + 1) k
    else false

/-- Forward (`dir = true`) branch of second-edition `indexOfBuffer`,
lines 2756-2794, byte granularity.  The result `none` models the case in
which the source loop never terminates: the loop condition is
`i !== bufLen - valLen`, so when `byteOffset` starts beyond
`bufLen - valLen` (in particular whenever the needle is longer than the
buffer) `i` only moves further away from the bound. -/
def indexOfBuffer_v2_fwd (buffer val : List Nat) (byteOffset : Nat) :
    Option Int :=
  let target : Int := (buffer.length : Int) - val.length
  if target < byteOffset then none
  else
    match indexOfBufferFirstByteScan buffer val byteOffset
        (target - byteOffset).toNat with
    | none => some (-1)
    | some i =>
      if indexOfBufferMatchRest buffer val i 1 (val.length - 1) then some i
      else some (-1)

/-- Forward (`dir` true) loop of the first-edition `arrayIndexOf`, lines
1305-1318, byte granularity (`indexSize` is 1 for byte needles since
`encoding` is undefined).  The source state is `(i, foundIndex)`; the
embedding carries `start` (equal to `foundIndex` when that is not -1 and
to `i` otherwise) and `matched = i - start`: the loop condition
`i < arrLength` becomes `start + matched < arrLength`; on a full match of
`valLength` units it returns `foundIndex`, i.e. `start`; on a mismatch the
source does `i -= i - foundIndex; foundIndex = -1` followed by `i++`,
i.e. `start := start + 1` with `matched := 0`. -/
def arrayIndexOfFwd (arr val : List Nat) (start matched : Nat) : Int :=
  if start + matched < arr.length then
    if arr[start + matched]? = val[matched]? then
      (if matched + 1 = val.length then (start : Int)
       else arrayIndexOfFwd arr val start (matched + 1))
    else arrayIndexOfFwd arr val (start + 1) 0
  else -1
termination_by (arr.length - start, arr.length - (start + matched))

/-- `isLeadSurrogate(codePoint)`, lines 838-840. -/
def isLeadSurrogate (c : Nat) : Bool := c &&& 0xfc00 == 0xd800

/-- `isTrailSurrogate(codePoint)`, lines 842-844. -/
def isTrailSurrogate (c : Nat) : Bool := c &&& 0xfc00 == 0xdc00

/-- Loop of `byteLengthUtf8(string)`, lines 846-865 (v1) and 2689-2706
(v2), identical in substance: 1, 2 or 3 bytes per BMP unit, except that
the trail unit of a surrogate pair adds 1 (3 for the lead + 1, the 4-byte
form); `prev` is the previous code unit. -/
def byteLengthUtf8Loop : Option Nat → List Nat → Nat
  | _, [] => 0
  | prev, c :: rest =>
    (if c ≤ 0x7f then 1
     else if c ≤ 0x7ff then 2
     else
       match prev with
       | some p => if isLeadSurrogate p ∧ isTrailSurrogate c then 1 else 3
       | none => 3) + byteLengthUtf8Loop (some c) rest

/-- `byteLengthUtf8(string)`; code units never exceed 0xFFFF, so the
4-byte branch of the source loop is unreachable and omitted. -/
def byteLengthUtf8 (s : List Nat) : Nat := byteLengthUtf8Loop none s

/-- One non-surrogate (or combined astral) code point through the encoding
tail of the `utf8Write` loop, lines 915-941 (v1) and 3901-3927 (v2):
produces the new buffer, offset, budget and written count, plus a flag for
the `break` taken when the remaining length budget is exhausted. -/
def utf8EncodeOne (buf : List Nat) (offset : Nat) (budget : Int)
    (written : Nat) (code : Nat) : List Nat × Nat × Int × Nat × Bool :=
  if code < 0x80 then
    let b := budget - 1
    if b < 0 then (buf, offset, b, written, true)
    else (buf.set offset code, offset + 1, b, written + 1, false)
  else if code < 0x800 then
    let b := budget - 2
    if b < 0 then (buf, offset, b, written, true)
    else
      (((buf.set offset (code >>> 0x6 ||| 0xC0)).set (offset + 1)
          (code &&& 0x3F ||| 0x80)),
        offset + 2, b, written + 2, false)
  else if code < 0x10000 then
    let b := budget - 3
    if b < 0 then (buf, offset, b, written, true)
    else
      ((((buf.set offset (code >>> 0xC ||| 0xE0)).set (offset + 1)
          (code >>> 0x6 &&& 0x3F ||| 0x80)).set (offset + 2)
          (code &&& 0x3F ||| 0x80)),
        offset + 3, b, written + 3, false)
  else if code < 0x110000 then
    let b := budget - 4
    if b < 0 then (buf, offset, b, written, true)
    else
      (((((buf.set offset (code >>> 0x12 ||| 0xF0)).set (offset + 1)
          (code >>> 0xC &&& 0x3F ||| 0x80)).set (offset + 2)
          (code >>> 0x6 &&& 0x3F ||| 0x80)).set (offset + 3)
          (code &&& 0x3F ||| 0x80)),
        offset + 4, b, written + 4, false)
  else (buf, offset, budget, written, false)

/-- The 3-byte replacement sequence EF BF BD written at `offset`, as in
lines 889-891 and the analogous sites. -/
def writeReplacement (buf : List Nat) (offset : Nat) : List Nat :=
  ((buf.set offset 0xEF).set (offset + 1) 0xBF).set (offset + 2) 0xBD

/-- Main loop of `utf8Write`, lines 883-942 (v1) and 3869-3928 (v2),
identical in both editions.  State: current buffer, write offset,
remaining length budget (which the source keeps decrementing even when a
replacement write is skipped), pending lead surrogate, bytes written. -/
def utf8WriteLoop (buf : List Nat) (offset : Nat) (budget : Int)
    (lead : Option Nat) (written : Nat) : List Nat → List Nat × Nat
  | [] => (buf, written)
  | c :: rest =>
    if 0xD7FF < c ∧ c < 0xE000 then
      match lead with
      | none =>
        if 0xDBFF < c ∨ rest = [] then
          let b := budget - 3
          if b > -1 then
            utf8WriteLoop (writeReplacement buf offset) (offset + 3) b none
              (written + 3) rest
          else utf8WriteLoop buf offset b none written rest
        else utf8WriteLoop buf offset budget (some c) written rest
      | some l =>
        if c < 0xDC00 then
          let b := budget - 3
          if b > -1 then
            utf8WriteLoop (writeReplacement buf offset) (offset + 3) b
              (some c) (written + 3) rest
          else utf8WriteLoop buf offset b (some c) written rest
        else
          let code := 0x10000 + ((l &&& 0x3ff) <<< 10) + (c &&& 0x3ff)
          match utf8EncodeOne buf offset budget written code with
          | (buf2, off2, b2, w2, brk) =>
            if brk then (buf2, w2)
            else utf8WriteLoop buf2 off2 b2 none w2 rest
    else
      match lead with
      | some _ =>
        let b := budget - 3
        let pair :=
          if b > -1 then (writeReplacement buf offset, offset + 3, written + 3)
          else (buf, offset, written)
        match utf8EncodeOne pair.1 pair.2.1 b pair.2.2 c with
        | (buf2, off2, b2, w2, brk) =>
          if brk then (buf2, w2)
          else utf8WriteLoop buf2 off2 b2 none w2 rest
      | none =>
        match utf8EncodeOne buf offset budget written c with
        | (buf2, off2, b2, w2, brk) =>
          if brk then (buf2, w2)
          else utf8WriteLoop buf2 off2 b2 none w2 rest

/-- `utf8Write(string, offset, length)`, lines 867-944 (v1) and 3857-3930
(v2). -/
def utf8Write (buf : List Nat) (s : List Nat) (offset length : Int) :
    Except JsError (List Nat × Nat) :=
  if offset < 0 then .error (.rangeError "Index out of range")
  else if offset > (buf.length : Int) then
    .error (.rangeError "offset is outside of buffer bounds")
  else if length < 0 then .error (.rangeError "Index out of range")
  else
    let eff : Int :=
      min ((buf.length : Int) - offset) (min (byteLengthUtf8 s) length)
    .ok (utf8WriteLoop buf offset.toNat eff none 0 s)

/-- Decode loop of `utf8Slice`, lines 952-1009 (v1) and 3796-3853 (v2),
identical in both editions, including the astral-plane split
`String.fromCharCode(0xd800 + (((code - 0x10000) >> 10) & 0x3ff))`
applied AFTER `code -= 0x10000` has already happened; the `>>` is the
32-bit arithmetic shift of the then-negative difference.  The fuel
argument `k` only bounds the number of iterations; every iteration
advances `i` by at least 1, so any `k` at least `e - i` makes the
embedding exact. -/
def utf8SliceLoop (buf : List Nat) (e : Nat) : Nat → Nat → List Nat
  | _, 0 => []
  | i, k + 1 =>
    if i < e then
      let first := buf.getD i 0
      let step : Option Nat × Nat :=
        if first ≤ 0xBF then
          if i + 1 ≤ e ∧ first < 0x80 then (some first, 1) else (none, 1)
        else if first ≤ 0xDF then
          if i + 2 ≤ e then
            let second := buf.getD (i + 1) 0
            if second &&& 0xC0 = 0x80 then
              let tmp := (first &&& 0x1F) <<< 0x6 ||| (second &&& 0x3F)
              if tmp > 0x7F then (some tmp, 2) else (none, 1)
            else (none, 1)
          else (none, 1)
        else if first ≤ 0xEF then
          if i + 3 ≤ e then
            let second := buf.getD (i + 1) 0
            let third := buf.getD (i + 2) 0
            if second &&& 0xC0 = 0x80 ∧ third &&& 0xC0 = 0x80 then
              let tmp := (first &&& 0xF) <<< 0xC ||| (second &&& 0x3F) <<< 0x6
                ||| (third &&& 0x3F)
              if tmp > 0x7FF ∧ (tmp < 0xD800 ∨ tmp > 0xDFFF) then (some tmp, 3)
              else (none, 1)
            else (none, 1)
          else (none, 1)
        else
          if i + 4 ≤ e then
            let second := buf.getD (i + 1) 0
            let third := buf.getD (i + 2) 0
            let fourth := buf.getD (i + 3) 0
            if second &&& 0xC0 = 0x80 ∧ third &&& 0xC0 = 0x80 ∧
                fourth &&& 0xC0 = 0x80 then
              let tmp := (first &&& 0xF) <<< 0x12 ||| (second &&& 0x3F) <<< 0xC
                ||| (third &&& 0x3F) <<< 0x6 ||| (fourth &&& 0x3F)
              if tmp > 0xFFFF ∧ tmp < 0x110000 then (some tmp, 4) else (none, 1)
            else (none, 1)
          else (none, 1)
      match step with
      | (none, _) => 0xFFFD :: utf8SliceLoop buf e (i + 1) k
      | (some cp, consumed) =>
        if cp > 0xFFFF then
          let cp2 := cp - 0x10000
          let leadUnit :=
            0xd800 + ((shrS32 ((cp2 : Int) - 0x10000) 10).emod 0x400).toNat
          leadUnit :: (0xdc00 + (cp2 &&& 0x3ff)) ::
            utf8SliceLoop buf e (i + consumed) k
        else cp :: utf8SliceLoop buf e (i + consumed) k
    else []

/-- `utf8Slice(start, end)`, lines 946-1011 (v1) and 3790-3855 (v2),
identical in both editions. -/
def utf8Slice (buf : List Nat) (start endIdx : Int) :
    Except JsError (List Nat) :=
  if start < 0 ∨ start > (buf.length : Int) ∨ endIdx > (buf.length : Int) then
    .error (.rangeError "Index out of range")
  else
    let e := if endIdx < start then start else endIdx
    .ok (utf8SliceLoop buf e.toNat start.toNat e.toNat)

/-- `kBase64DecMap`, lines 3997-4009 of the second edition: 128 entries
indexed by character code. -/
def kBase64DecMap : List Nat := [
  0x00, 0x00, 0x00, 0x00, 0x00, 0x00, 0x00, 0x00, 0x00, 0x00, 0x00, 0x00,
  0x00, 0x00, 0x00, 0x00, 0x00, 0x00, 0x00, 0x00, 0x00, 0x00, 0x00, 0x00,
  0x00, 0x00, 0x00, 0x00, 0x00, 0x00, 0x00, 0x00, 0x00, 0x00, 0x00, 0x00,
  0x00, 0x00, 0x00, 0x00, 0x00, 0x00, 0x00, 0x3E, 0x00, 0x00, 0x00, 0x3F,
  0x34, 0x35, 0x36, 0x37, 0x38, 0x39, 0x3A, 0x3B, 0x3C, 0x3D, 0x00, 0x00,
  0x00, 0x00, 0x00, 0x00, 0x00, 0x00, 0x01, 0x02, 0x03, 0x04, 0x05, 0x06,
  0x07, 0x08, 0x09, 0x0A, 0x0B, 0x0C, 0x0D, 0x0E, 0x0F, 0x10, 0x11, 0x12,
  0x13, 0x14, 0x15, 0x16, 0x17, 0x18, 0x19, 0x00, 0x00, 0x00, 0x00, 0x00,
  0x00, 0x1A, 0x1B, 0x1C, 0x1D, 0x1E, 0x1F, 0x20, 0x21, 0x22, 0x23, 0x24,
  0x25, 0x26, 0x27, 0x28, 0x29, 0x2A, 0x2B, 0x2C, 0x2D, 0x2E, 0x2F, 0x30,
  0x31, 0x32, 0x33, 0x00, 0x00, 0x00, 0x00, 0x00]

/-- The alphabet test of `base64Decode`, lines 4056-4057: digit, upper,
lower, plus (code 43) or slash (code 47); written on the code unit, which
is what the source single-character comparisons compare. -/
def isBase64Alpha (c : Char) : Bool :=
  decide (48 ≤ c.toNat ∧ c.toNat ≤ 57) ||
  decide (65 ≤ c.toNat ∧ c.toNat ≤ 90) ||
  decide (97 ≤ c.toNat ∧ c.toNat ≤ 122) ||
  decide (c.toNat = 43) || decide (c.toNat = 47)

/-- The whitespace-skip test of `base64Decode`, line 4064: a character at
most space that is space, newline, tab, carriage return or form feed
(codes 32, 10, 9, 13, 12). -/
def isBase64Skip (c : Char) : Bool :=
  decide (c.toNat ≤ 32) &&
    (decide (c.toNat = 32) || decide (c.toNat = 10) || decide (c.toNat = 9) ||
     decide (c.toNat = 13) || decide (c.toNat = 12))

/-- Scanning phase of `base64Decode`, lines 4048-4069: one pass over the
characters accumulating the 6-bit digit values of alphabet characters and
the count of padding characters; `none` models the `hadError` breaks
(a third padding character, an alphabet character after padding, or any
other non-whitespace character). -/
def base64Scan (s : List Char) (eq : Nat) : Option (List Nat × Nat) :=
  match s with
  | [] => some ([], eq)
  | c :: rest =>
    if c = '=' then
      if eq + 1 > 2 then none else base64Scan rest (eq + 1)
    else if isBase64Alpha c then
      if eq ≠ 0 then none
      else
        match base64Scan rest eq with
        | none => none
        | some (ds, e) => some (kBase64DecMap.getD c.toNat 0 :: ds, e)
    else if isBase64Skip c then base64Scan rest eq
    else none

/-- Output byte `j` of the 4-digit-to-3-byte combining loops of
`base64Decode`, lines 4086-4099.  The imperative loops write cell `didx`
from cells `sidx .. sidx+3` with `didx = 3t + r`, `sidx = 4t`; every read
happens at an index at least `didx` before that cell is overwritten, so
cell `j` of the result is this pure function of the original digit list,
with `j = 3 * (j / 3) + j % 3`.  Reads past the end of the digit list are
`undefined`, which the shift-and-mask arithmetic turns into 0. -/
def base64CombineByte (d : List Nat) (j : Nat) : Nat :=
  let s := 4 * (j / 3)
  match j % 3 with
  | 0 => (d.getD s 0 <<< 2 &&& 255) ||| (d.getD (s + 1) 0 >>> 4 &&& 3)
  | 1 => (d.getD (s + 1) 0 <<< 4 &&& 255) ||| (d.getD (s + 2) 0 >>> 2 &&& 15)
  | _ => (d.getD (s + 2) 0 <<< 6 &&& 255) ||| (d.getD (s + 3) 0 &&& 63)

/-- Post-scan phase of `base64Decode`, lines 4070-4102: the
padding-consistency and length-mod-4 validations (`return ''` on failure,
and an empty digit list also yields the empty result on every path),
then the combining loops over `outLength - floor((outLength + 3) / 4)`
output bytes. -/
def base64Post (digits : List Nat) (eq : Nat) : List Nat :=
  let outLength := digits.length
  if outLength = 0 then []
  else if eq ≠ 0 ∧ (outLength + eq) % 4 ≠ 0 then []
  else if outLength % 4 = 1 then []
  else
    let outLength2 := outLength - (outLength + 3) / 4
    if outLength2 = 0 then []
    else (List.range outLength2).map (base64CombineByte digits)

/-- `base64Decode(data)`, lines 4040-4103 of the second edition: scan,
then the padding/length validations, then the byte-combining loops; every
failure path returns the empty string, and the function contains no throw
site — as a total Lean function it can only return a value.  (The first
edition instead feeds the platform `atob`; the spec describes this
symbol-by-symbol validating decoder.) -/
def base64Decode (s : List Char) : List Nat :=
  if s.length = 0 then []
  else
    match base64Scan s 0 with
    | none => []
    | some (digits, eq) => base64Post digits eq

/-- The rejection conditions named by the claim, on the raw input string:
a symbol outside the alphabet that is not padding and not skipped
whitespace; more than 2 padding characters; an alphabet character after a
padding character; or a length inconsistent mod 4 (counting alphabet
characters n and padding characters e: padding present with (n + e) % 4
nonzero, or n % 4 = 1). -/
def malformedBase64 (s : List Char) : Prop :=
  (∃ c ∈ s, isBase64Alpha c = false ∧ c ≠ '=' ∧ isBase64Skip c = false) ∨
  2 < (s.filter (fun c => c = '=')).length ∨
  (∃ s₁ s₂, s = s₁ ++ '=' :: s₂ ∧ ∃ c ∈ s₂, isBase64Alpha c = true) ∨
  ((s.filter (fun c => c = '=')).length ≠ 0 ∧
    ((s.filter (fun c => isBase64Alpha c)).length +
      (s.filter (fun c => c = '=')).length) % 4 ≠ 0) ∨
  (s.filter (fun c => isBase64Alpha c)).length % 4 = 1

theorem jsGet_eq_none_iff (buf : List Nat) (i : Int) :
    jsGet buf i = none ↔ ¬ (0 ≤ i ∧ i < (buf.length : Int)) := by
  unfold jsGet
  split
  · rename_i h
    rw [List.getElem?_eq_none_iff]
    omega
  · rename_i h
    simp only [true_iff]
    omega

theorem jsGet_eq_some_getD (buf : List Nat) (i : Int)
    (h0 : 0 ≤ i) (h1 : i < (buf.length : Int)) :
    jsGet buf i = some (buf.getD i.toNat 0) := by
  have hlt : i.toNat < buf.length := by omega
  unfold jsGet
  rw [if_pos h0, List.getElem?_eq_getElem hlt, List.getD_eq_getElem _ _ hlt]

theorem checkBounds_eq_some (buf : List Nat) (offset : Int) (w : Nat)
    (h : ¬ (0 ≤ offset ∧ offset + (w + 1) ≤ (buf.length : Int))) :
    checkBounds buf offset w =
      some (boundsError offset ((buf.length : Int) - (w + 1))) := by
  unfold checkBounds
  have hg : jsGet buf offset = none ∨ jsGet buf (offset + (w : Int)) = none := by
    by_cases ho : 0 ≤ offset ∧ offset < (buf.length : Int)
    · right
      rw [jsGet_eq_none_iff]
      omega
    · left
      rw [jsGet_eq_none_iff]
      omega
  rw [if_pos hg]

/-- C5: a fixed-width integer write whose value is outside the exact
representable range for the width and signedness, or whose byte range
`[offset, offset+width)` is not fully inside the buffer, returns an error
and leaves every byte of the buffer unchanged.  Stated for the cited
`writeU_Int8`, `writeU_Int32LE` and `writeBigU_Int64LE` instances
(`writeUInt8`, `writeUInt32LE`, `writeBigUInt64LE`), which share the
`checkInt`/`checkBounds` validation path that every integer write in the
source runs before its first store. -/
theorem rejected_integer_write_leaves_buffer_unchanged
    (buf : List Nat) (value offset : Int) :
    (¬ (0 ≤ value ∧ value ≤ 255 ∧
          0 ≤ offset ∧ offset + 1 ≤ (buf.length : Int)) →
      (writeUInt8 buf value offset).1 = buf ∧
        ∃ e, (writeUInt8 buf value offset).2 = .error e) ∧
    (¬ (0 ≤ value ∧ value ≤ 4294967295 ∧
          0 ≤ offset ∧ offset + 4 ≤ (buf.length : Int)) →
      (writeUInt32LE buf value offset).1 = buf ∧
        ∃ e, (writeUInt32LE buf value offset).2 = .error e) ∧
    (¬ (0 ≤ value ∧ value ≤ 18446744073709551615 ∧
          0 ≤ offset ∧ offset + 8 ≤ (buf.length : Int)) →
      (writeBigUInt64LE buf value offset).1 = buf ∧
        ∃ e, (writeBigUInt64LE buf value offset).2 = .error e) := by
  refine ⟨fun h => ?_, fun h => ?_, fun h => ?_⟩
  · unfold writeUInt8 writeU_Int8
    by_cases hv : value > 255 ∨ value < 0
    · rw [if_pos hv]
      exact ⟨rfl, _, rfl⟩
    · rw [if_neg hv]
      have hg : jsGet buf offset = none := by
        rw [jsGet_eq_none_iff]
        omega
      rw [if_pos hg]
      exact ⟨rfl, _, rfl⟩
  · unfold writeUInt32LE writeU_Int32LE checkInt
    by_cases hv : value > 4294967295 ∨ value < 0
    · rw [if_pos hv]
      exact ⟨rfl, _, rfl⟩
    · rw [if_neg hv, checkBounds_eq_some buf offset 3 (by omega)]
      exact ⟨rfl, _, rfl⟩
  · unfold writeBigUInt64LE writeBigU_Int64LE checkInt
    by_cases hv : value > 18446744073709551615 ∨ value < 0
    · rw [if_pos hv]
      exact ⟨rfl, _, rfl⟩
    · rw [if_neg hv, checkBounds_eq_some buf offset 7 (by omega)]
      exact ⟨rfl, _, rfl⟩

/-- Witness for C5: `writeUInt32LE` with value 2^32 on a 4-byte buffer is
rejected and the buffer is unchanged. -/
theorem rejected_integer_write_leaves_buffer_unchanged_witness :
    (writeUInt32LE [0, 0, 0, 0] 4294967296 0).1 = [0, 0, 0, 0] ∧
      ∃ e, (writeUInt32LE [0, 0, 0, 0] 4294967296 0).2 = .error e :=
  (rejected_integer_write_leaves_buffer_unchanged [0, 0, 0, 0]
    4294967296 0).2.1 (by decide)

/-- C6: on a buffer of positive length n, `readUInt8` at offset n-1
returns that byte and `readUInt8` at offset n raises a range error;
`writeUInt32LE` with value 0xFFFFFFFF at an in-bounds offset succeeds,
while value 0x100000000 raises the out-of-range error for `value`. -/
theorem read_write_boundary (buf buf2 : List Nat) (off : Int)
    (h1 : 1 ≤ buf.length)
    (h2 : 0 ≤ off) (h3 : off + 4 ≤ (buf2.length : Int)) :
    readUInt8 buf ((buf.length : Int) - 1) = .ok (buf.getD (buf.length - 1) 0) ∧
    readUInt8 buf (buf.length : Int) = .error (.outOfRange "offset") ∧
    (writeUInt32LE buf2 4294967295 off).2 = .ok (off + 4) ∧
    (writeUInt32LE buf2 4294967296 off).2 = .error (.outOfRange "value") := by
  refine ⟨?_, ?_, ?_, ?_⟩
  · unfold readUInt8
    rw [jsGet_eq_some_getD buf _ (by omega) (by omega)]
    have ht : ((buf.length : Int) - 1).toNat = buf.length - 1 := by omega
    rw [ht]
  · unfold readUInt8
    have hg : jsGet buf (buf.length : Int) = none := by
      rw [jsGet_eq_none_iff]
      omega
    rw [hg]
    unfold boundsError
    rw [if_neg (by omega)]
  · unfold writeUInt32LE writeU_Int32LE checkInt checkBounds
    rw [if_neg (by omega)]
    have hg : ¬ (jsGet buf2 off = none ∨ jsGet buf2 (off + (3 : Nat)) = none) := by
      rw [jsGet_eq_some_getD buf2 off (by omega) (by omega),
        jsGet_eq_some_getD buf2 (off + (3 : Nat)) (by omega) (by omega)]
      simp
    rw [if_neg hg]
  · unfold writeUInt32LE writeU_Int32LE checkInt
    rw [if_pos (by omega)]

/-- Witness for C6 at a 1-byte buffer and a 4-byte buffer with offset 0. -/
theorem read_write_boundary_witness :
    readUInt8 [7] 0 = .ok 7 ∧
    readUInt8 [7] 1 = .error (.outOfRange "offset") ∧
    (writeUInt32LE [0, 0, 0, 0] 4294967295 0).2 = .ok 4 ∧
    (writeUInt32LE [0, 0, 0, 0] 4294967296 0).2 = .error (.outOfRange "value") := by
  have h := read_write_boundary [7] [0, 0, 0, 0] 0 (by decide) (by decide)
    (by decide)
  simpa using h

theorem asciiWriteLoop_length (s : List Nat) (buf : List Nat) (offset : Nat) :
    (asciiWriteLoop buf s offset).length = buf.length := by
  induction s generalizing buf offset with
  | nil => rfl
  | cons c rest ih =>
    rw [asciiWriteLoop, ih, List.length_set]

theorem asciiWriteLoop_getElem? (s : List Nat) (buf : List Nat)
    (offset : Nat) (hs : offset + s.length ≤ buf.length) (i : Nat) :
    (asciiWriteLoop buf s offset)[i]? =
      if offset ≤ i ∧ i < offset + s.length then
        (s[i - offset]?).map (fun c => c &&& 255)
      else buf[i]? := by
  induction s generalizing buf offset with
  | nil =>
    simp only [asciiWriteLoop, List.length_nil, Nat.add_zero]
    rw [if_neg (by omega)]
  | cons c rest ih =>
    have hs2 : offset + rest.length + 1 ≤ buf.length := by
      simp only [List.length_cons] at hs
      omega
    rw [asciiWriteLoop]
    rw [ih _ (offset + 1) (by simp only [List.length_set]; omega)]
    by_cases h1 : offset + 1 ≤ i ∧ i < offset + 1 + rest.length
    · rw [if_pos h1, if_pos (by simp only [List.length_cons]; omega)]
      have hidx : i - offset = (i - (offset + 1)) + 1 := by omega
      rw [hidx, List.getElem?_cons_succ]
    · rw [if_neg h1]
      by_cases h2 : i = offset
      · rw [if_pos (by simp only [List.length_cons]; omega)]
        have hofs : offset < buf.length := by omega
        rw [h2, List.getElem?_set_self, Nat.sub_self, List.getElem?_cons_zero]
        · simp [hofs]
        · exact hofs
      · rw [List.getElem?_set_ne (by omega),
          if_neg (by simp only [List.length_cons]; omega)]

theorem asciiSliceLoop_eq_map (buf : List Nat) (e : Nat) (he : e ≤ buf.length) :
    ∀ i : Nat, i ≤ e →
      asciiSliceLoop buf i e =
        ((buf.drop i).take (e - i)).map (fun b => b &&& 127) := by
  have key : ∀ n i, e - i = n → i ≤ e →
      asciiSliceLoop buf i e =
        ((buf.drop i).take (e - i)).map (fun b => b &&& 127) := by
    intro n
    induction n with
    | zero =>
      intro i hn hi
      rw [asciiSliceLoop, if_neg (by omega), hn]
      simp
    | succ k ih =>
      intro i hn hi
      rw [asciiSliceLoop, if_pos (by omega)]
      rw [ih (i + 1) (by omega) (by omega)]
      have hsub : e - i = (e - (i + 1)) + 1 := by omega
      rw [hsub]
      rw [List.drop_eq_getElem_cons (show i < buf.length by omega)]
      rw [List.take_succ_cons, List.map_cons]
      rw [List.getD_eq_getElem buf 0 (show i < buf.length by omega)]
  intro i hi
  exact key (e - i) i rfl hi

/-- C9 counterexample: the claim says `asciiWrite` stores
`charCodeAt(i) & 0x7F`; on the one-character string with code unit 233
(Latin small e with acute) written into a 1-byte buffer, the code stores
byte 233, not 233 mod 128 = 105. -/
theorem ascii_write_not_masked_to_7_bits :
    asciiWrite [0] [233] 0 1 = .ok ([233], 1) ∧
      (233 : Nat) &&& 127 = 105 ∧ ([233] : List Nat) ≠ [105] := by
  refine ⟨?_, by decide, by decide⟩
  rfl

/-- C9 amended: the ASCII codec masks each code unit to 8 bits on write
(`charCodeAt(i) & 0xFF`, the same as latin1) and masks each byte to 7 bits
on read (`this[i] & 0x7F`). -/
theorem ascii_codec_masks (buf s : List Nat) (offset length : Int)
    (h1 : 0 ≤ offset) (h2 : 0 ≤ length) (h3 : offset ≤ (buf.length : Int)) :
    (∃ bufOut written, asciiWrite buf s offset length = .ok (bufOut, written) ∧
      written = min (buf.length - offset.toNat) (min s.length length.toNat) ∧
      bufOut.length = buf.length ∧
      (∀ j : Nat, j < written →
        bufOut[offset.toNat + j]? = some (s.getD j 0 &&& 255)) ∧
      (∀ i : Nat, i < offset.toNat ∨ offset.toNat + written ≤ i →
        bufOut[i]? = buf[i]?)) ∧
    (∀ start endIdx : Int, 0 ≤ start → start ≤ endIdx →
      endIdx ≤ (buf.length : Int) →
      asciiSlice buf start endIdx =
        .ok (((buf.drop start.toNat).take (endIdx - start).toNat).map
          (fun b => b &&& 127))) := by
  constructor
  · unfold asciiWrite
    rw [if_neg (by omega), if_neg (by omega)]
    refine ⟨_, _, rfl, rfl, ?_, ?_, ?_⟩
    · rw [asciiWriteLoop_length]
    · intro j hj
      set L := min (buf.length - offset.toNat) (min s.length length.toNat) with hL
      have hlen : (s.take L).length = L := by
        rw [List.length_take]
        omega
      rw [asciiWriteLoop_getElem? _ _ _ (by rw [hlen]; omega)]
      rw [hlen, if_pos (by omega)]
      have hj2 : offset.toNat + j - offset.toNat = j := by omega
      rw [hj2]
      rw [List.getElem?_take_of_lt hj]
      have hjs : j < s.length := by omega
      rw [List.getElem?_eq_getElem hjs, List.getD_eq_getElem s 0 hjs]
      rfl
    · intro i hi
      set L := min (buf.length - offset.toNat) (min s.length length.toNat) with hL
      have hlen : (s.take L).length = L := by
        rw [List.length_take]
        omega
      rw [asciiWriteLoop_getElem? _ _ _ (by rw [hlen]; omega)]
      rw [hlen, if_neg (by omega)]
  · intro start endIdx hs1 hs2 hs3
    unfold asciiSlice
    rw [if_neg (by omega)]
    have hne : ¬ endIdx < start := by omega
    simp only [hne, if_false]
    rw [asciiSliceLoop_eq_map buf endIdx.toNat (by omega) start.toNat (by omega)]
    have : endIdx.toNat - start.toNat = (endIdx - start).toNat := by omega
    rw [this]

/-- Witness for C9 amended: write the two code units 233 and 65 into a
3-byte buffer at offset 1, then slice byte 0. -/
theorem ascii_codec_masks_witness :
    (∃ bufOut written,
      asciiWrite [9, 9, 9] [233, 65] 1 2 = .ok (bufOut, written) ∧
      written = min ([9, 9, 9].length - (1 : Int).toNat)
        (min [233, 65].length (2 : Int).toNat) ∧
      bufOut.length = [9, 9, 9].length ∧
      (∀ j : Nat, j < written →
        bufOut[(1 : Int).toNat + j]? = some ([233, 65].getD j 0 &&& 255)) ∧
      (∀ i : Nat, i < (1 : Int).toNat ∨ (1 : Int).toNat + written ≤ i →
        bufOut[i]? = [9, 9, 9][i]?)) ∧
    (∀ start endIdx : Int, 0 ≤ start → start ≤ endIdx →
      endIdx ≤ (([9, 9, 9] : List Nat).length : Int) →
      asciiSlice [9, 9, 9] start endIdx =
        .ok ((([9, 9, 9].drop start.toNat).take (endIdx - start).toNat).map
          (fun b => b &&& 127))) :=
  ascii_codec_masks [9, 9, 9] [233, 65] 1 2 (by decide) (by decide) (by decide)

theorem fillRange_length (value : Int) (e : Nat) :
    ∀ (n i : Nat) (buf : List Nat), e - i ≤ n →
      (fillRange buf value i e).length = buf.length := by
  intro n
  induction n with
  | zero =>
    intro i buf h
    rw [fillRange, if_neg (by omega)]
  | succ k ih =>
    intro i buf h
    by_cases hc : i < e
    · rw [fillRange, if_pos hc, ih (i + 1) _ (by omega), List.length_set]
    · rw [fillRange, if_neg hc]

theorem fillRange_frame (value : Int) (e : Nat) :
    ∀ (n i : Nat) (buf : List Nat), e - i ≤ n →
      ∀ j : Nat, j < i ∨ e ≤ j →
        (fillRange buf value i e)[j]? = buf[j]? := by
  intro n
  induction n with
  | zero =>
    intro i buf h j hj
    rw [fillRange, if_neg (by omega)]
  | succ k ih =>
    intro i buf h j hj
    by_cases hc : i < e
    · rw [fillRange, if_pos hc, ih (i + 1) _ (by omega) j (by omega),
        List.getElem?_set_ne (by omega)]
    · rw [fillRange, if_neg hc]

/-- C10: for a numeric byte value and a validated range `[offset, end)`
inside the buffer, `_fill` succeeds, preserves the length, changes no byte
at an index outside `[offset, end)`, and returns the buffer entirely
unchanged when `offset >= end`. -/
theorem fill_mutates_only_the_range (buf : List Nat)
    (value offset endIdx : Int)
    (h1 : 0 ≤ offset) (h2 : 0 ≤ endIdx) (h3 : endIdx ≤ (buf.length : Int)) :
    ∃ bufOut, _fill buf value offset endIdx = .ok bufOut ∧
      bufOut.length = buf.length ∧
      (∀ j : Nat, ((j : Int) < offset ∨ endIdx ≤ (j : Int)) →
        bufOut[j]? = buf[j]?) ∧
      (endIdx ≤ offset → bufOut = buf) := by
  unfold _fill
  rw [if_neg (by omega), if_neg (by omega)]
  by_cases hc : offset ≥ endIdx
  · rw [if_pos hc]
    exact ⟨buf, rfl, rfl, fun j hj => rfl, fun hle => rfl⟩
  · rw [if_neg hc]
    simp only
    rw [if_neg (by omega)]
    refine ⟨_, rfl, ?_, ?_, ?_⟩
    · exact fillRange_length value endIdx.toNat (endIdx.toNat - offset.toNat)
        offset.toNat buf (by omega)
    · intro j hj
      exact fillRange_frame value endIdx.toNat (endIdx.toNat - offset.toNat)
        offset.toNat buf (by omega) j (by omega)
    · intro hle
      omega

/-- Witness for C10: fill bytes 1 and 2 of a 4-byte buffer. -/
theorem fill_mutates_only_the_range_witness :
    ∃ bufOut, _fill [1, 2, 3, 4] 9 1 3 = .ok bufOut ∧
      bufOut.length = ([1, 2, 3, 4] : List Nat).length ∧
      (∀ j : Nat, ((j : Int) < 1 ∨ 3 ≤ (j : Int)) →
        bufOut[j]? = ([1, 2, 3, 4] : List Nat)[j]?) ∧
      ((3 : Int) ≤ 1 → bufOut = [1, 2, 3, 4]) :=
  fill_mutates_only_the_range [1, 2, 3, 4] 9 1 3 (by decide) (by decide)
    (by decide)

/-- C4 divergence: on the buffers a = ff and b = 00 00, lexicographic
unsigned-byte order (and the second edition) gives 1 because the bytes
differ at position 0, but the first-edition `_compare` returns -1 purely
because a is shorter; a is not a prefix of b, so the claim requires 1. -/
theorem compare_editions_disagree_on_length_first :
    _compare_v1 [255] [0, 0] = -1 ∧ _compare_v2 [255] [0, 0] = 1 := by
  exact ⟨rfl, rfl⟩

/-- C8 divergence: first-edition `swap16` on the 2-byte buffer 01 02
throws a ReferenceError instead of swapping the group in place; the
second edition swaps it to 02 01, rejects a 3-byte buffer with the
invalid-buffer-size error without modifying it, and `swap64` reverses an
8-byte group. -/
theorem swap16_editions_disagree :
    swap16_v1 [1, 2] = .error (.referenceError "len") ∧
    swap16_v2 [1, 2] = .ok [2, 1] ∧
    swap16_v2 [1, 2, 3] = .error (.invalidBufferSize "16-bits") ∧
    swap64_v2 [1, 2, 3, 4, 5, 6, 7, 8] = .ok [8, 7, 6, 5, 4, 3, 2, 1] := by
  exact ⟨rfl, rfl, rfl, rfl⟩

/-- C2 divergence: encoding the bytes ff fe fd does give the string
"fffefd" (first conjunct), but `hexWrite` reads only ONE character per
byte — the character at index `i * 2` — so decoding "fffefd" stores the
digit values 0f 0f 0f instead of ff fe fd and the round trip fails; the
first-edition `hexSlice` also emits a single unpadded digit for bytes
below 16 (last conjunct), while the claim requires two zero-padded
digits. -/
theorem hex_write_parses_single_digits :
    hexSlice_v1 [255, 254, 253] 0 3 = .ok "fffefd".toList ∧
    hexSlice_v2 [255, 254, 253] 0 3 = .ok "fffefd".toList ∧
    hexWrite [0, 0, 0] "fffefd".toList 0 3 = .ok ([15, 15, 15], 3) ∧
    ([15, 15, 15] : List Nat) ≠ [255, 254, 253] ∧
    hexSlice_v1 [5] 0 1 = .ok "5".toList := by
  refine ⟨?_, ?_, ?_, by decide, ?_⟩ <;> rfl

/-- C3 divergence: searching the buffer 61 for the needle 61 (the whole
buffer), and the buffer 61 62 63 for the needle 62 63 (a suffix), the
second-edition `indexOfBuffer` forward loop `i !== bufLen - valLen` never
tests the start position `bufLen - valLen` itself, so it answers -1 where
the claim requires 0 and 1; the first-edition `arrayIndexOf` (whose loop
runs while `i < arrLength`) returns the required positions. -/
theorem index_of_whole_buffer_needle :
    indexOfBuffer_v2_fwd [97] [97] 0 = some (-1) ∧
    indexOfBuffer_v2_fwd [97, 98, 99] [98, 99] 0 = some (-1) ∧
    arrayIndexOfFwd [97] [97] 0 0 = 0 ∧
    arrayIndexOfFwd [97, 98, 99] [98, 99] 0 0 = 1 := by
  refine ⟨rfl, rfl, ?_, ?_⟩
  · simp [arrayIndexOfFwd]
  · simp [arrayIndexOfFwd]

/-- C1 divergence: the well-formed two-unit string D800 DC00 (the single
code point U+10000) UTF-8-encodes to F0 90 80 80 as required, but
`utf8Slice` splits the decoded code point with
`0xd800 + (((code - 0x10000) >> 10) & 0x3ff)` after `code` has already had
0x10000 subtracted, so it returns the units DBC0 DC00 instead of D800
DC00 and the round trip fails for every code point above U+FFFF. -/
theorem utf8_round_trip_breaks_on_astral :
    utf8Write [0, 0, 0, 0] [0xD800, 0xDC00] 0 4 =
      .ok ([0xF0, 0x90, 0x80, 0x80], 4) ∧
    utf8Slice [0xF0, 0x90, 0x80, 0x80] 0 4 = .ok [0xDBC0, 0xDC00] ∧
    ([0xDBC0, 0xDC00] : List Nat) ≠ [0xD800, 0xDC00] := by
  refine ⟨?_, ?_, by decide⟩ <;> rfl

theorem isBase64Skip_not_alpha (c : Char) (h : isBase64Skip c = true) :
    isBase64Alpha c = false := by
  unfold isBase64Skip at h
  unfold isBase64Alpha
  simp only [Bool.and_eq_true, Bool.or_eq_true, decide_eq_true_eq] at h
  rw [Bool.eq_false_iff]
  intro hcontra
  simp only [Bool.or_eq_true, decide_eq_true_eq] at hcontra
  omega

theorem eq_sign_not_alpha : isBase64Alpha '=' = false := by decide

theorem base64Scan_none_of_bad_char (s : List Char) :
    ∀ eq, (∃ c ∈ s, isBase64Alpha c = false ∧ c ≠ '=' ∧
        isBase64Skip c = false) →
      base64Scan s eq = none := by
  induction s with
  | nil =>
    intro eq h
    simp at h
  | cons c rest ih =>
    intro eq h
    obtain ⟨d, hd, hprop⟩ := h
    simp only [base64Scan]
    rcases List.mem_cons.mp hd with rfl | hmem
    · rw [if_neg hprop.2.1, if_neg (by rw [hprop.1]; exact Bool.false_ne_true),
        if_neg (by rw [hprop.2.2]; exact Bool.false_ne_true)]
    · by_cases h1 : c = '='
      · rw [if_pos h1]
        by_cases h2 : eq + 1 > 2
        · rw [if_pos h2]
        · rw [if_neg h2]
          exact ih _ ⟨d, hmem, hprop⟩
      · rw [if_neg h1]
        by_cases h3 : isBase64Alpha c = true
        · rw [if_pos h3]
          by_cases h4 : eq ≠ 0
          · rw [if_pos h4]
          · rw [if_neg h4, ih eq ⟨d, hmem, hprop⟩]
        · rw [if_neg h3]
          by_cases h5 : isBase64Skip c = true
          · rw [if_pos h5]
            exact ih _ ⟨d, hmem, hprop⟩
          · rw [if_neg h5]

theorem base64Scan_none_of_eq_overflow (s : List Char) :
    ∀ eq, eq ≤ 2 →
      2 < eq + (s.filter (fun c => c = '=')).length →
      base64Scan s eq = none := by
  induction s with
  | nil =>
    intro eq h1 h2
    simp at h2
    omega
  | cons c rest ih =>
    intro eq h1 h2
    simp only [base64Scan]
    by_cases h3 : c = '='
    · rw [if_pos h3]
      by_cases h4 : eq + 1 > 2
      · rw [if_pos h4]
      · rw [if_neg h4]
        refine ih (eq + 1) (by omega) ?_
        rw [List.filter_cons_of_pos (by simp [h3])] at h2
        simp only [List.length_cons] at h2
        omega
    · rw [if_neg h3]
      rw [List.filter_cons_of_neg (by simp [h3])] at h2
      by_cases h5 : isBase64Alpha c = true
      · rw [if_pos h5]
        by_cases h6 : eq ≠ 0
        · rw [if_pos h6]
        · rw [if_neg h6, ih eq h1 h2]
      · rw [if_neg h5]
        by_cases h7 : isBase64Skip c = true
        · rw [if_pos h7]
          exact ih eq h1 h2
        · rw [if_neg h7]

theorem base64Scan_none_of_alpha_after_eq (s : List Char) :
    ∀ eq, 1 ≤ eq → (∃ c ∈ s, isBase64Alpha c = true) →
      base64Scan s eq = none := by
  induction s with
  | nil =>
    intro eq h1 h2
    simp at h2
  | cons c rest ih =>
    intro eq h1 h2
    obtain ⟨d, hd, hprop⟩ := h2
    simp only [base64Scan]
    by_cases h3 : c = '='
    · rw [if_pos h3]
      by_cases h4 : eq + 1 > 2
      · rw [if_pos h4]
      · rw [if_neg h4]
        refine ih (eq + 1) (by omega) ⟨d, ?_, hprop⟩
        rcases List.mem_cons.mp hd with rfl | hmem
        · rw [h3] at hprop
          exact absurd hprop (by rw [eq_sign_not_alpha]; exact Bool.false_ne_true)
        · exact hmem
    · rw [if_neg h3]
      by_cases h5 : isBase64Alpha c = true
      · rw [if_pos h5, if_pos (by omega)]
      · rw [if_neg h5]
        by_cases h7 : isBase64Skip c = true
        · rw [if_pos h7]
          refine ih eq h1 ⟨d, ?_, hprop⟩
          rcases List.mem_cons.mp hd with rfl | hmem
          · exact absurd hprop (by rw [isBase64Skip_not_alpha d h7]; exact Bool.false_ne_true)
          · exact hmem
        · rw [if_neg h7]

theorem base64Scan_none_of_interleaved (s₁ : List Char) :
    ∀ (s₂ : List Char) (eq : Nat), (∃ c ∈ s₂, isBase64Alpha c = true) →
      base64Scan (s₁ ++ '=' :: s₂) eq = none := by
  induction s₁ with
  | nil =>
    intro s₂ eq hw
    simp only [List.nil_append, base64Scan]
    rw [if_pos trivial]
    by_cases h : eq + 1 > 2
    · rw [if_pos h]
    · rw [if_neg h]
      exact base64Scan_none_of_alpha_after_eq s₂ (eq + 1) (by omega) hw
  | cons c rest ih =>
    intro s₂ eq hw
    simp only [List.cons_append, base64Scan]
    simp only [List.append_eq]
    by_cases h3 : c = '='
    · rw [if_pos h3]
      by_cases h4 : eq + 1 > 2
      · rw [if_pos h4]
      · rw [if_neg h4]
        exact ih s₂ (eq + 1) hw
    · rw [if_neg h3]
      by_cases h5 : isBase64Alpha c = true
      · rw [if_pos h5]
        by_cases h6 : eq ≠ 0
        · rw [if_pos h6]
        · rw [if_neg h6, ih s₂ eq hw]
      · rw [if_neg h5]
        by_cases h7 : isBase64Skip c = true
        · rw [if_pos h7]
          exact ih s₂ eq hw
        · rw [if_neg h7]

theorem base64Scan_ok_counts (s : List Char) :
    ∀ eq digits e, base64Scan s eq = some (digits, e) →
      digits.length = (s.filter (fun c => isBase64Alpha c)).length ∧
      e = eq + (s.filter (fun c => c = '=')).length := by
  induction s with
  | nil =>
    intro eq digits e h
    simp only [base64Scan, Option.some.injEq, Prod.mk.injEq] at h
    simp [← h.1, ← h.2]
  | cons c rest ih =>
    intro eq digits e h
    simp only [base64Scan] at h
    by_cases h3 : c = '='
    · rw [if_pos h3] at h
      by_cases h4 : eq + 1 > 2
      · rw [if_pos h4] at h
        exact absurd h (by simp)
      · rw [if_neg h4] at h
        obtain ⟨hl, hr⟩ := ih (eq + 1) digits e h
        constructor
        · rw [hl, List.filter_cons_of_neg]
          simp [h3, eq_sign_not_alpha]
        · rw [hr, List.filter_cons_of_pos (by simp [h3])]
          simp only [List.length_cons]
          omega
    · rw [if_neg h3] at h
      by_cases h5 : isBase64Alpha c = true
      · rw [if_pos h5] at h
        by_cases h6 : eq ≠ 0
        · rw [if_pos h6] at h
          exact absurd h (by simp)
        · rw [if_neg h6] at h
          cases hrec : base64Scan rest eq with
          | none =>
            rw [hrec] at h
            exact absurd h (by simp)
          | some pr =>
            obtain ⟨ds, e2⟩ := pr
            rw [hrec] at h
            simp only [Option.some.injEq, Prod.mk.injEq] at h
            obtain ⟨hl, hr⟩ := ih eq ds e2 hrec
            constructor
            · rw [← h.1, List.length_cons, hl,
                List.filter_cons_of_pos (by simp [h5])]
              simp
            · rw [← h.2, hr, List.filter_cons_of_neg (by simp [h3])]
      · rw [if_neg h5] at h
        by_cases h7 : isBase64Skip c = true
        · rw [if_pos h7] at h
          obtain ⟨hl, hr⟩ := ih eq digits e h
          constructor
          · rw [hl, List.filter_cons_of_neg (by simp [h5])]
          · rw [hr, List.filter_cons_of_neg (by simp [h3])]
        · rw [if_neg h7] at h
          exact absurd h (by simp)

/-- C7: `base64Decode` fails softly: it is a total function with no throw
site, every input rejected by the scan or the padding/length validations
(out-of-alphabet symbol, more than 2 padding characters, an alphabet
character after padding, or counts inconsistent mod 4) decodes to the
empty result, and the three spec examples decode to "f", "fo" and the
empty result respectively. -/
theorem base64_decode_fails_softly :
    (∀ s : List Char, malformedBase64 s → base64Decode s = []) ∧
    base64Decode "Zg==".toList = [102] ∧
    base64Decode "Zm8=".toList = [102, 111] ∧
    base64Decode "Z===".toList = [] := by
  refine ⟨?_, rfl, rfl, rfl⟩
  intro s hm
  unfold base64Decode
  by_cases hlen : s.length = 0
  · rw [if_pos hlen]
  · rw [if_neg hlen]
    rcases hm with hbad | hcnt | ⟨s₁, s₂, rfl, hw⟩ | hlen4 | hlen1
    · rw [base64Scan_none_of_bad_char s 0 hbad]
    · rw [base64Scan_none_of_eq_overflow s 0 (by omega) (by omega)]
    · rw [base64Scan_none_of_interleaved s₁ s₂ 0 hw]
    · cases hscan : base64Scan s 0 with
      | none => rfl
      | some pr =>
        obtain ⟨digits, e⟩ := pr
        obtain ⟨hd, he⟩ := base64Scan_ok_counts s 0 digits e hscan
        show base64Post digits e = []
        unfold base64Post
        by_cases h0 : digits.length = 0
        · rw [if_pos h0]
        · rw [if_neg h0, if_pos ⟨by omega, by omega⟩]
    · cases hscan : base64Scan s 0 with
      | none => rfl
      | some pr =>
        obtain ⟨digits, e⟩ := pr
        obtain ⟨hd, he⟩ := base64Scan_ok_counts s 0 digits e hscan
        show base64Post digits e = []
        unfold base64Post
        rw [if_neg (by omega)]
        by_cases h2 : e ≠ 0 ∧ (digits.length + e) % 4 ≠ 0
        · rw [if_pos h2]
        · rw [if_neg h2, if_pos (by omega)]

/-- Witness for C7 at the input with the out-of-alphabet symbol at code
64, which is rejected with an empty result. -/
theorem base64_decode_fails_softly_witness :
    base64Decode "b@d".toList = [] :=
  base64_decode_fails_softly.1 "b@d".toList (Or.inl (by decide))
